import Mathlib

/-!
Verification of the FreeCAD package-metadata reader (`Base::Metadata`,
`src/Base/MetadataReader.{h,cpp}`) against its natural-language
specification.  The C++ code walks a Xerces DOM tree; here the DOM is
embedded shallowly as an inductive tree of nodes, the record extractors
(`Meta::Contact`, `Meta::License`, `Meta::Url`, `Meta::Dependency`,
`Meta::GenericMetadata` constructors) become pure Lean functions on that
tree, and the `Metadata` constructor becomes a function returning
`Except ParseError Metadata`.
-/

namespace MetadataReader

/-- A DOM node as seen by the parser: an element (tag name, attribute
list, child nodes), a text node, or a comment node.  `DOMElement` data is
inlined into the `element` constructor.  Attribute order and child order
follow document order. -/
inductive Node where
  | element (tag : String) (attrs : List (String × String)) (children : List Node)
  | text (s : String)
  | comment (s : String)

mutual

/-- Model of `DOMNode::getTextContent()`: for an element, the
concatenation of the text content of its children in document order;
for a text node its data; comments contribute nothing (per the DOM
specification `getTextContent` excludes comment nodes). -/
def Node.textContent : Node → String
  | .element _ _ cs => Node.textContentList cs
  | .text s => s
  | .comment _ => ""

/-- Concatenated text content of a list of sibling nodes. -/
def Node.textContentList : List Node → String
  | [] => ""
  | n :: ns => Node.textContent n ++ Node.textContentList ns

end

/-- Model of `DOMElement::getAttribute(name)`: the attribute's value, or
the empty string when the attribute is absent (Xerces returns the empty
XMLCh string in that case). -/
def getAttr (attrs : List (String × String)) (name : String) : String :=
  match attrs.find? (fun p => p.1 == name) with
  | some p => p.2
  | none => ""

/-- `Meta::Contact`: a `name` (element text) and an `email` attribute. -/
structure Contact where
  name : String
  email : String
deriving Repr, DecidableEq

/-- `Meta::Contact::Contact(DOMElement*)`: `email` is the `email`
attribute (empty when absent), `name` is the element's text content. -/
def Contact.ofElement (attrs : List (String × String)) (cs : List Node) : Contact :=
  { name := Node.textContentList cs
    email := getAttr attrs "email" }

/-- `Meta::License`: a `name` (element text) and an optional `file`
path; `none` models the default-constructed empty `boost::filesystem::path`. -/
structure License where
  name : String
  file : Option String
deriving Repr, DecidableEq

/-- `Meta::License::License(DOMElement*)`: `file` is set only when the
`file` attribute has positive length; `name` is the text content. -/
def License.ofElement (attrs : List (String × String)) (cs : List Node) : License :=
  { name := Node.textContentList cs
    file := if (getAttr attrs "file").length > 0 then some (getAttr attrs "file") else none }

/-- `Meta::UrlType` enumeration. -/
inductive UrlType where
  | website
  | repository
  | bugtracker
deriving Repr, DecidableEq

/-- `Meta::Url`.  In the C++ struct the member `UrlType type` has no
default member initializer, and the constructor assigns it only in the
branches it takes; `none` models the member being left unassigned
(indeterminate) on the fall-through path. -/
structure Url where
  location : String
  type : Option UrlType
deriving Repr, DecidableEq

/-- `Meta::Url::Url(DOMElement*)`: `type` is `website` when the `type`
attribute is empty (absent) or `"website"`, `bugtracker` or `repository`
for those exact values; any other value takes none of the three branches,
leaving the member unassigned (`none`).  `location` is the text content. -/
def Url.ofElement (attrs : List (String × String)) (cs : List Node) : Url :=
  let t := getAttr attrs "type"
  { location := Node.textContentList cs
    type :=
      if t = "" ∨ t = "website" then some UrlType.website
      else if t = "bugtracker" then some UrlType.bugtracker
      else if t = "repository" then some UrlType.repository
      else none }

/-- `Meta::Dependency`: the referenced package name plus the six
constraint attributes, each the empty string when absent. -/
structure Dependency where
  package : String
  version_lt : String
  version_lte : String
  version_eq : String
  version_gte : String
  version_gt : String
  condition : String
deriving Repr, DecidableEq

/-- `Meta::Dependency::Dependency(DOMElement*)`: every field is the
corresponding attribute's value (empty when absent); `package` is the
element's text content.  No cross-field check is performed. -/
def Dependency.ofElement (attrs : List (String × String)) (cs : List Node) : Dependency :=
  { package := Node.textContentList cs
    version_lt := getAttr attrs "version_lt"
    version_lte := getAttr attrs "version_lte"
    version_eq := getAttr attrs "version_eq"
    version_gte := getAttr attrs "version_gte"
    version_gt := getAttr attrs "version_gt"
    condition := getAttr attrs "condition" }

/-- Insertion into a `std::map<std::string,std::string>` via
`map::insert`: the pair is added only when the key is not yet present
(insert does not overwrite). -/
def mapInsert (m : List (String × String)) (k v : String) : List (String × String) :=
  if m.any (fun p => p.1 == k) then m else m ++ [(k, v)]

/-- `Meta::GenericMetadata`: text content plus an attribute map. -/
structure GenericMetadata where
  contents : String
  attributes : List (String × String)
deriving Repr, DecidableEq

/-- `Meta::GenericMetadata::GenericMetadata(DOMElement*)`: `contents` is
the text content; every attribute of the element is inserted into the
map in order. -/
def GenericMetadata.ofElement (attrs : List (String × String)) (cs : List Node) : GenericMetadata :=
  { contents := Node.textContentList cs
    attributes := attrs.foldl (fun m p => mapInsert m p.1 p.2) [] }

/-- The `Base::Metadata` aggregate: the private fields `_name` ..
`_genericMetadata`, default-initialized as in C++ (empty strings, empty
vectors) before `parseVersion3` runs. -/
structure Metadata where
  name : String := ""
  version : String := ""
  description : String := ""
  maintainer : List Contact := []
  license : List License := []
  url : List Url := []
  author : List Contact := []
  depend : List Dependency := []
  conflict : List Dependency := []
  replace : List Dependency := []
  genericMetadata : List GenericMetadata := []
deriving Repr, DecidableEq

/-- One iteration of the loop body in `Metadata::parseVersion3`: a
non-element child is skipped (`dynamic_cast` yields null, `continue`);
an element is dispatched on its tag through the if/else chain; an
unrecognized element is materialized as `GenericMetadata` only when
`getChildNodes()->getLength() == 0`, i.e. when it has no child nodes at
all (text and comment nodes included in the count); otherwise it is
ignored. -/
def parseChild (m : Metadata) (n : Node) : Metadata :=
  match n with
  | .text _ => m
  | .comment _ => m
  | .element tag attrs cs =>
    if tag = "name" then { m with name := Node.textContentList cs }
    else if tag = "version" then { m with version := Node.textContentList cs }
    else if tag = "description" then { m with description := Node.textContentList cs }
    else if tag = "maintainer" then { m with maintainer := m.maintainer ++ [Contact.ofElement attrs cs] }
    else if tag = "license" then { m with license := m.license ++ [License.ofElement attrs cs] }
    else if tag = "url" then { m with url := m.url ++ [Url.ofElement attrs cs] }
    else if tag = "author" then { m with author := m.author ++ [Contact.ofElement attrs cs] }
    else if tag = "depend" then { m with depend := m.depend ++ [Dependency.ofElement attrs cs] }
    else if tag = "conflict" then { m with conflict := m.conflict ++ [Dependency.ofElement attrs cs] }
    else if tag = "replace" then { m with replace := m.replace ++ [Dependency.ofElement attrs cs] }
    else if cs.length = 0 then { m with genericMetadata := m.genericMetadata ++ [GenericMetadata.ofElement attrs cs] }
    else m

/-- `Metadata::parseVersion3`: fold the loop body over the root's child
nodes in document order, starting from the default-initialized fields. -/
def parseVersion3 (children : List Node) : Metadata :=
  children.foldl parseChild {}

/-- `Metadata::operator[](tag)`: the C++ body is
`return _genericMetadata;` — it returns the whole vector and never reads
`tag`. -/
def Metadata.opIndex (m : Metadata) (tag : String) : List GenericMetadata :=
  m.genericMetadata

/-- The error taxonomy of a parse call.  The C++ constructor signals
errors by throwing: a Xerces fatal parse error (the default
`HandlerBase::fatalError` rethrows the `SAXParseException` for
non-well-formed input) maps to `documentError`; the explicit
`throw std::exception(...)` sites for the root-tag check, the missing
`format` attribute and the unsupported format version are schema
violations and map to `schemaError` carrying the thrown message;
`XMLString::parseInt` on a non-numeric `format` value throws a
`NumberFormatException`, mapped to `numberFormatError`. -/
inductive ParseError where
  | documentError (msg : String)
  | schemaError (msg : String)
  | numberFormatError
deriving Repr, DecidableEq

/-- The input to a parse call: either a source that is not well-formed
markup (Xerces aborts with a fatal error before any DOM exists), or a
well-formed document, which has exactly one root element, given by its
tag, attributes and child nodes. -/
inductive Document where
  | malformed (msg : String)
  | wellFormed (tag : String) (attrs : List (String × String)) (children : List Node)

/-- The numeric value of a list of decimal digit characters, most
significant first. -/
def digitsVal (l : List Char) : Nat :=
  l.foldl (fun acc c => 10 * acc + (c.toNat - Char.toNat '0')) 0

/-- The natural number denoted by a character list, or `none` when the
list is empty or contains a non-digit. -/
def charsToNat? (l : List Char) : Option Nat :=
  if l = [] then none
  else if l.all Char.isDigit then some (digitsVal l) else none

/-- Model of `XMLString::parseInt`: an optional minus sign followed by
decimal digits gives the integer value; anything else is `none` (Xerces
throws `NumberFormatException` there). -/
def parseXmlInt (s : String) : Option Int :=
  match s.data with
  | '-' :: rest => (charsToNat? rest).map (fun n => -(n : Int))
  | l => (charsToNat? l).map (fun n => (n : Int))

/-- The body of `Metadata::Metadata(path)` after the Xerces engine is
initialized: parse the file (failure propagates as `documentError`),
check the root tag is `package`, check the `format` attribute is
non-empty, parse it as an integer and dispatch: `case 3` runs
`parseVersion3`, every other value throws.  The thrown message strings
are the source's own (including its typo `pacakge.xml`). -/
def Metadata.parse (doc : Document) : Except ParseError Metadata :=
  match doc with
  | .malformed msg => .error (.documentError msg)
  | .wellFormed tag attrs children =>
    if tag ≠ "package" then
      .error (.schemaError "package.xml must contain one, and only one, <package> element.")
    else if (getAttr attrs "format").length = 0 then
      .error (.schemaError "<package> must contain the 'format' attribute")
    else
      match parseXmlInt (getAttr attrs "format") with
      | none => .error .numberFormatError
      | some format =>
        if format = 3 then .ok (parseVersion3 children)
        else .error (.schemaError "pacakge.xml format version is not supported by this version of FreeCAD")

/-- Events on the Xerces engine resource: `XMLPlatformUtils::Initialize`
and `XMLPlatformUtils::Terminate`. -/
inductive EngineEvent where
  | engineInit
  | engineTerm
deriving Repr, DecidableEq

/-- The engine-event trace of constructing a `Metadata` and letting it
go out of scope, under C++ object-lifetime rules: the constructor calls
`Initialize()` first and then parses; when the parse throws, the
constructor exits by exception and the destructor of the
never-completed object is not run, so `Terminate()` (which lives only in
`~Metadata`) is not called; when construction succeeds, the destructor
runs at end of scope and calls `Terminate()`. -/
def Metadata.lifecycle (doc : Document) : List EngineEvent × Except ParseError Metadata :=
  match Metadata.parse doc with
  | .ok m => ([EngineEvent.engineInit, EngineEvent.engineTerm], .ok m)
  | .error e => ([EngineEvent.engineInit], .error e)

/-- Splitting a character list on a separator character; like
`String.splitOn` for a single-character separator, the result always
has at least one (possibly empty) piece. -/
def splitOnChar (c : Char) : List Char → List (List Char)
  | [] => [[]]
  | x :: xs =>
    if x = c then [] :: splitOnChar c xs
    else
      match splitOnChar c xs with
      | [] => [[x]]
      | h :: t => (x :: h) :: t

/-- Modelled from the spec: one numeric component of a version string;
non-numeric suffixes (pre-release/build tags) are ignored for ordering,
so only the leading digits count; a component with no leading digits
does not parse. -/
def versionComponent (l : List Char) : Option Nat :=
  charsToNat? (l.takeWhile Char.isDigit)

/-- Modelled from the spec: the standard `major.minor.patch` triplet
parse of a version string.  The string is split on `.`; a version with
fewer than three numeric components is padded with zeros; a string whose
leading components are not numeric is not triplet-shaped and yields
`none`. -/
def parseTriplet (s : String) : Option (Nat × Nat × Nat) :=
  match (splitOnChar '.' s.data).map versionComponent with
  | [] => none
  | [some a] => some (a, 0, 0)
  | [some a, some b] => some (a, b, 0)
  | some a :: some b :: some c :: _ => some (a, b, c)
  | _ => none

/-- Lexicographic strict order on version triplets. -/
def tripletLt (x y : Nat × Nat × Nat) : Bool :=
  x.1 < y.1 ∨ (x.1 = y.1 ∧ (x.2.1 < y.2.1 ∨ (x.2.1 = y.2.1 ∧ x.2.2 < y.2.2)))

/-- Lexicographic non-strict order on version triplets. -/
def tripletLe (x y : Nat × Nat × Nat) : Bool :=
  tripletLt x y ∨ x = y

/-- Modelled from the spec: evaluation of one relational bound of a
dependency against the candidate version.  An absent bound (empty
string) restricts nothing; a bound or candidate that is not
triplet-shaped is ignored for bound comparison (treated as
non-restrictive); otherwise the candidate triplet is compared with the
bound triplet. -/
def checkBound (bound candidate : String) (cmp : (Nat × Nat × Nat) → (Nat × Nat × Nat) → Bool) : Bool :=
  if bound = "" then true
  else
    match parseTriplet candidate, parseTriplet bound with
    | some c, some b => cmp c b
    | _, _ => true

/-- Modelled from the spec: one comparison of the condition expression
language, over version-like tokens after `$VERSION` substitution.
Equality and inequality are string comparisons (matching the exact-match
rule for `version_eq`); the relational operators use the triplet order,
and hold only when both operands are triplet-shaped. -/
def evalComparison (lhs op rhs : String) : Bool :=
  if op = "==" then lhs == rhs
  else if op = "!=" then lhs != rhs
  else
    match parseTriplet lhs, parseTriplet rhs with
    | some a, some b =>
      if op = "<" then tripletLt a b
      else if op = "<=" then tripletLe a b
      else if op = ">" then tripletLt b a
      else if op = ">=" then tripletLe b a
      else false
    | _, _ => false

/-- Modelled from the spec: a whitespace-tokenized condition expression
as comparisons joined left-to-right by `and` / `or`; anything else is
not a valid expression and evaluates to false. -/
def evalCondToks : List String → Bool
  | [a, op, b] => evalComparison a op b
  | a :: op :: b :: "and" :: rest => evalComparison a op b && evalCondToks rest
  | a :: op :: b :: "or" :: rest => evalComparison a op b || evalCondToks rest
  | _ => false

/-- Whitespace tokenization of a condition expression: split on spaces
and drop empty tokens. -/
def tokenize (s : String) : List String :=
  ((splitOnChar ' ' s.data).map String.mk).filter (fun t => t ≠ "")

/-- Modelled from the spec: `Meta::Dependency::matchesDependency`'s
condition branch (its implementation is not among the sources; only the
declaration and its REP-149 documentation are).  Every token equal to
the placeholder variable `$VERSION` is replaced by the candidate
version, and the token stream is evaluated as a boolean expression in
the minimal sandboxed expression language. -/
def evalCondition (cond version : String) : Bool :=
  evalCondToks ((tokenize cond).map (fun t => if t = "$VERSION" then version else t))

/-- Modelled from the spec: `Meta::Dependency::matchesDependency`, whose
implementation is not among the sources (the header declares it at
`MetadataReader.h:80` with its documentation).  If `condition` is
specified it is evaluated with the candidate substituted for `$VERSION`
and takes precedence.  Otherwise every present bound must hold:
`version_eq` is an exact string match with no semantic-version
normalization; the four relational bounds use the triplet comparison,
ignoring non-triplet-shaped strings; a dependency with no bounds is
satisfied by any candidate. -/
def matchesDependency (d : Dependency) (version : String) : Bool :=
  if d.condition ≠ "" then evalCondition d.condition version
  else
    (if d.version_eq ≠ "" then version == d.version_eq else true)
    && checkBound d.version_lt version (fun c b => tripletLt c b)
    && checkBound d.version_lte version (fun c b => tripletLe c b)
    && checkBound d.version_gt version (fun c b => tripletLt b c)
    && checkBound d.version_gte version (fun c b => tripletLe b c)

/-- View of a node as an element with the given tag: its attributes and
children when the tags match, `none` otherwise. -/
def isTag (tag : String) : Node → Option (List (String × String) × List Node)
  | .element t attrs cs => if t = tag then some (attrs, cs) else none
  | .text _ => none
  | .comment _ => none

/-- The last entry of a list, or the default when the list is empty
(phrased as a left fold so that it composes with the parser's walk). -/
def lastD {β : Type} (l : List β) (d : β) : β :=
  l.foldl (fun _ x => x) d

/-- The text content a node contributes to a scalar field keyed by
`tag`: present exactly when the node is an element with that tag. -/
def textObs (tag : String) (n : Node) : Option String :=
  (isTag tag n).map (fun p => Node.textContentList p.2)

/-- The record a node contributes to a sequence field keyed by `tag`,
built by the record extractor `mk`. -/
def recordObs {β : Type} (tag : String) (mk : List (String × String) → List Node → β)
    (n : Node) : Option β :=
  (isTag tag n).map (fun p => mk p.1 p.2)

/-- Whether a tag is one of the ten recognized by the format-3 walk. -/
def recognizedTag (t : String) : Bool :=
  t == "name" || t == "version" || t == "description" || t == "maintainer" || t == "license" ||
  t == "url" || t == "author" || t == "depend" || t == "conflict" || t == "replace"

/-- The `GenericMetadata` record a node contributes: present exactly for
an unrecognized element with zero child nodes. -/
def genericObs : Node → Option GenericMetadata
  | .element t attrs cs =>
    if recognizedTag t then none
    else if cs.length = 0 then some (GenericMetadata.ofElement attrs cs) else none
  | .text _ => none
  | .comment _ => none

/-- The dependency of the `version_eq` tests: only `version_eq` is set,
to `"2.0.0"`. -/
def depEq200 : Dependency :=
  { package := "ExamplePackage", version_lt := "", version_lte := "", version_eq := "2.0.0"
    version_gte := "", version_gt := "", condition := "" }

/-- The dependency of the `version_gte` tests: only `version_gte` is
set, to `"1.2.0"`. -/
def depGte120 : Dependency :=
  { package := "ExamplePackage", version_lt := "", version_lte := "", version_eq := ""
    version_gte := "1.2.0", version_gt := "", condition := "" }

end MetadataReader

namespace MetadataReader

/-- Scalar fields: the walk's effect on a projection that each step
overwrites from its observation (when present) is the last observation
in document order, the initial value when there is none. -/
theorem foldl_proj_lastD {β : Type} (proj : Metadata → β) (obs : Node → Option β)
    (step : ∀ m n, proj (parseChild m n) = (obs n).getD (proj m)) :
    ∀ (children : List Node) (init : Metadata),
      proj (children.foldl parseChild init) = lastD (children.filterMap obs) (proj init) := by
  intro children
  induction children with
  | nil => intro init; rfl
  | cons n ns ih =>
    intro init
    rw [List.foldl_cons, ih, step]
    cases h : obs n with
    | none => simp [List.filterMap_cons, h]
    | some b => simp [List.filterMap_cons, h, lastD]

/-- Sequence fields: the walk's effect on a projection that each step
extends by its observation (when present) is the initial value followed
by the observations in document order. -/
theorem foldl_proj_append {β : Type} (proj : Metadata → List β) (obs : Node → Option β)
    (step : ∀ m n, proj (parseChild m n) = proj m ++ (obs n).toList) :
    ∀ (children : List Node) (init : Metadata),
      proj (children.foldl parseChild init) = proj init ++ children.filterMap obs := by
  intro children
  induction children with
  | nil => intro init; simp
  | cons n ns ih =>
    intro init
    rw [List.foldl_cons, ih, step]
    cases h : obs n with
    | none => simp [List.filterMap_cons, h]
    | some b => simp [List.filterMap_cons, h]

/-- Characterization of the loop body on an element child: each scalar
field is overwritten by the element's text content exactly when the tag
matches, each sequence field is extended by the corresponding record
exactly when the tag matches, and the generic sequence is extended
exactly for an unrecognized element with zero child nodes. -/
theorem parseChild_element (m : Metadata) (t : String) (attrs : List (String × String)) (cs : List Node) :
    parseChild m (.element t attrs cs) = {
      name := (textObs "name" (.element t attrs cs)).getD m.name
      version := (textObs "version" (.element t attrs cs)).getD m.version
      description := (textObs "description" (.element t attrs cs)).getD m.description
      maintainer := m.maintainer ++ (recordObs "maintainer" Contact.ofElement (.element t attrs cs)).toList
      license := m.license ++ (recordObs "license" License.ofElement (.element t attrs cs)).toList
      url := m.url ++ (recordObs "url" Url.ofElement (.element t attrs cs)).toList
      author := m.author ++ (recordObs "author" Contact.ofElement (.element t attrs cs)).toList
      depend := m.depend ++ (recordObs "depend" Dependency.ofElement (.element t attrs cs)).toList
      conflict := m.conflict ++ (recordObs "conflict" Dependency.ofElement (.element t attrs cs)).toList
      replace := m.replace ++ (recordObs "replace" Dependency.ofElement (.element t attrs cs)).toList
      genericMetadata := m.genericMetadata ++ (genericObs (.element t attrs cs)).toList } := by
  simp only [parseChild, textObs, recordObs, genericObs, isTag, recognizedTag]
  by_cases h1 : t = "name"
  · subst h1; simp
  by_cases h2 : t = "version"
  · subst h2; simp
  by_cases h3 : t = "description"
  · subst h3; simp
  by_cases h4 : t = "maintainer"
  · subst h4; simp
  by_cases h5 : t = "license"
  · subst h5; simp
  by_cases h6 : t = "url"
  · subst h6; simp
  by_cases h7 : t = "author"
  · subst h7; simp
  by_cases h8 : t = "depend"
  · subst h8; simp
  by_cases h9 : t = "conflict"
  · subst h9; simp
  by_cases h10 : t = "replace"
  · subst h10; simp
  by_cases hlen : cs.length = 0
  · simp [h1, h2, h3, h4, h5, h6, h7, h8, h9, h10, hlen, beq_iff_eq]
  · simp [h1, h2, h3, h4, h5, h6, h7, h8, h9, h10, hlen, beq_iff_eq]

/-- Step effect on the `_name` field. -/
theorem parseChild_name (m : Metadata) (n : Node) :
    (parseChild m n).name = (textObs "name" n).getD m.name := by
  cases n with
  | element t attrs cs => rw [parseChild_element]
  | text s => rfl
  | comment s => rfl

/-- Step effect on the `_version` field. -/
theorem parseChild_version (m : Metadata) (n : Node) :
    (parseChild m n).version = (textObs "version" n).getD m.version := by
  cases n with
  | element t attrs cs => rw [parseChild_element]
  | text s => rfl
  | comment s => rfl

/-- Step effect on the `_description` field. -/
theorem parseChild_description (m : Metadata) (n : Node) :
    (parseChild m n).description = (textObs "description" n).getD m.description := by
  cases n with
  | element t attrs cs => rw [parseChild_element]
  | text s => rfl
  | comment s => rfl

/-- Step effect on the `_maintainer` sequence. -/
theorem parseChild_maintainer (m : Metadata) (n : Node) :
    (parseChild m n).maintainer = m.maintainer ++ (recordObs "maintainer" Contact.ofElement n).toList := by
  cases n with
  | element t attrs cs => rw [parseChild_element]
  | text s => simp [parseChild, recordObs, isTag]
  | comment s => simp [parseChild, recordObs, isTag]

/-- Step effect on the `_license` sequence. -/
theorem parseChild_license (m : Metadata) (n : Node) :
    (parseChild m n).license = m.license ++ (recordObs "license" License.ofElement n).toList := by
  cases n with
  | element t attrs cs => rw [parseChild_element]
  | text s => simp [parseChild, recordObs, isTag]
  | comment s => simp [parseChild, recordObs, isTag]

/-- Step effect on the `_url` sequence. -/
theorem parseChild_url (m : Metadata) (n : Node) :
    (parseChild m n).url = m.url ++ (recordObs "url" Url.ofElement n).toList := by
  cases n with
  | element t attrs cs => rw [parseChild_element]
  | text s => simp [parseChild, recordObs, isTag]
  | comment s => simp [parseChild, recordObs, isTag]

/-- Step effect on the `_author` sequence. -/
theorem parseChild_author (m : Metadata) (n : Node) :
    (parseChild m n).author = m.author ++ (recordObs "author" Contact.ofElement n).toList := by
  cases n with
  | element t attrs cs => rw [parseChild_element]
  | text s => simp [parseChild, recordObs, isTag]
  | comment s => simp [parseChild, recordObs, isTag]

/-- Step effect on the `_depend` sequence. -/
theorem parseChild_depend (m : Metadata) (n : Node) :
    (parseChild m n).depend = m.depend ++ (recordObs "depend" Dependency.ofElement n).toList := by
  cases n with
  | element t attrs cs => rw [parseChild_element]
  | text s => simp [parseChild, recordObs, isTag]
  | comment s => simp [parseChild, recordObs, isTag]

/-- Step effect on the `_conflict` sequence. -/
theorem parseChild_conflict (m : Metadata) (n : Node) :
    (parseChild m n).conflict = m.conflict ++ (recordObs "conflict" Dependency.ofElement n).toList := by
  cases n with
  | element t attrs cs => rw [parseChild_element]
  | text s => simp [parseChild, recordObs, isTag]
  | comment s => simp [parseChild, recordObs, isTag]

/-- Step effect on the `_replace` sequence. -/
theorem parseChild_replace (m : Metadata) (n : Node) :
    (parseChild m n).replace = m.replace ++ (recordObs "replace" Dependency.ofElement n).toList := by
  cases n with
  | element t attrs cs => rw [parseChild_element]
  | text s => simp [parseChild, recordObs, isTag]
  | comment s => simp [parseChild, recordObs, isTag]

/-- Step effect on the `_genericMetadata` sequence. -/
theorem parseChild_generic (m : Metadata) (n : Node) :
    (parseChild m n).genericMetadata = m.genericMetadata ++ (genericObs n).toList := by
  cases n with
  | element t attrs cs => rw [parseChild_element]
  | text s => simp [parseChild, genericObs]
  | comment s => simp [parseChild, genericObs]

/-- C1 (code divergence): the constructor performs no required-field
validation after the format-3 child walk, contradicting the header's
guarantee that name, version, description, maintainer and license exist
upon class creation: a format-3 `package` document with no children at
all parses successfully into a `Metadata` whose `name`, `version` and
`description` are empty and whose `maintainer` and `license` sequences
are empty, instead of failing with a `SchemaError` naming `name`. -/
theorem parse_accepts_missing_required_fields :
    Metadata.parse (Document.wellFormed "package" [("format", "3")] [])
      = Except.ok { name := "", version := "", description := "", maintainer := [], license := [],
                    url := [], author := [], depend := [], conflict := [], replace := [],
                    genericMetadata := [] } :=
  rfl

/-- C2 (code divergence): the element `<custom attr="x">hello</custom>`
has one child node (the text node `hello`), so the walk's
`getChildNodes()->getLength() == 0` test fails and no `GenericMetadata`
is materialized for it; and `operator[]` ignores its tag argument,
returning the whole generic sequence for every tag, so records of other
tags are returned as well. -/
theorem generic_metadata_divergence :
    (parseVersion3 [Node.element "custom" [("attr", "x")] [Node.text "hello"]]).genericMetadata = []
  ∧ (∀ tag : String,
      (parseVersion3 [Node.element "custom" [("attr", "x")] [], Node.element "other" [] []]).opIndex tag
        = [{ contents := "", attributes := [("attr", "x")] }, { contents := "", attributes := [] }]) :=
  ⟨rfl, fun _ => rfl⟩

/-- C3 (code divergence): extracting a `Url` yields `website` when the
`type` attribute is absent, `bugtracker` and `repository` for those
exact values, and `location` is always the text content; but for an
unrecognized `type` value no branch of the constructor assigns the
`type` member, which is left unassigned (modelled `none`) rather than
falling back to `website`. -/
theorem url_type_unassigned_on_unrecognized :
    (Url.ofElement [] [Node.text "example.com"]).type = some UrlType.website
  ∧ (Url.ofElement [("type", "bugtracker")] []).type = some UrlType.bugtracker
  ∧ (Url.ofElement [("type", "repository")] []).type = some UrlType.repository
  ∧ (Url.ofElement [("type", "mirror")] [Node.text "loc"]).type = none
  ∧ (Url.ofElement [("type", "mirror")] [Node.text "loc"]).location = "loc" :=
  ⟨rfl, rfl, rfl, rfl, rfl⟩

/-- C4: for a dependency whose only constraint is
`version_eq = "2.0.0"`, `matchesDependency` holds exactly for the
candidate string equal to `"2.0.0"` (exact string comparison, no
semantic-version normalization), and in particular fails for `"2.0"`
and `"2.0.0.1"`. -/
theorem matches_version_eq_exact_string :
    (∀ v : String, matchesDependency depEq200 v = true ↔ v = "2.0.0")
  ∧ matchesDependency depEq200 "2.0" = false
  ∧ matchesDependency depEq200 "2.0.0.1" = false := by
  refine ⟨fun v => ?_, rfl, rfl⟩
  simp [matchesDependency, depEq200, checkBound]

/-- C5: for a dependency whose only constraint is
`version_gte = "1.2.0"`, `matchesDependency` holds for `"1.2.0"` and
`"1.3.0"` and fails for `"1.1.9"`; comparison is lexicographic on the
numeric triplet, a version with fewer than three components is
zero-padded (`"1.2"` passes), and non-numeric suffixes are ignored
(`"1.2.0-rc1"` passes). -/
theorem matches_version_gte_triplet :
    matchesDependency depGte120 "1.2.0" = true
  ∧ matchesDependency depGte120 "1.3.0" = true
  ∧ matchesDependency depGte120 "1.1.9" = false
  ∧ matchesDependency depGte120 "1.2" = true
  ∧ matchesDependency depGte120 "1.2.0-rc1" = true :=
  ⟨rfl, rfl, rfl, rfl, rfl⟩

/-- C6: over the format-3 child walk, each of `name`, `version`,
`description` ends as the text content of the last element with that tag
in document order (empty when there is none), and each of the seven
typed sequences and the generic sequence lists exactly the records of
its elements in document order. -/
theorem parseVersion3_last_wins_and_document_order (children : List Node) :
    (parseVersion3 children).name = lastD (children.filterMap (textObs "name")) ""
  ∧ (parseVersion3 children).version = lastD (children.filterMap (textObs "version")) ""
  ∧ (parseVersion3 children).description = lastD (children.filterMap (textObs "description")) ""
  ∧ (parseVersion3 children).maintainer = children.filterMap (recordObs "maintainer" Contact.ofElement)
  ∧ (parseVersion3 children).license = children.filterMap (recordObs "license" License.ofElement)
  ∧ (parseVersion3 children).url = children.filterMap (recordObs "url" Url.ofElement)
  ∧ (parseVersion3 children).author = children.filterMap (recordObs "author" Contact.ofElement)
  ∧ (parseVersion3 children).depend = children.filterMap (recordObs "depend" Dependency.ofElement)
  ∧ (parseVersion3 children).conflict = children.filterMap (recordObs "conflict" Dependency.ofElement)
  ∧ (parseVersion3 children).replace = children.filterMap (recordObs "replace" Dependency.ofElement) := by
  refine ⟨?_, ?_, ?_, ?_, ?_, ?_, ?_, ?_, ?_, ?_⟩
  · simpa [parseVersion3] using
      foldl_proj_lastD (fun m => m.name) (textObs "name") parseChild_name children {}
  · simpa [parseVersion3] using
      foldl_proj_lastD (fun m => m.version) (textObs "version") parseChild_version children {}
  · simpa [parseVersion3] using
      foldl_proj_lastD (fun m => m.description) (textObs "description") parseChild_description children {}
  · simpa [parseVersion3] using
      foldl_proj_append (fun m => m.maintainer) (recordObs "maintainer" Contact.ofElement)
        parseChild_maintainer children {}
  · simpa [parseVersion3] using
      foldl_proj_append (fun m => m.license) (recordObs "license" License.ofElement)
        parseChild_license children {}
  · simpa [parseVersion3] using
      foldl_proj_append (fun m => m.url) (recordObs "url" Url.ofElement)
        parseChild_url children {}
  · simpa [parseVersion3] using
      foldl_proj_append (fun m => m.author) (recordObs "author" Contact.ofElement)
        parseChild_author children {}
  · simpa [parseVersion3] using
      foldl_proj_append (fun m => m.depend) (recordObs "depend" Dependency.ofElement)
        parseChild_depend children {}
  · simpa [parseVersion3] using
      foldl_proj_append (fun m => m.conflict) (recordObs "conflict" Dependency.ofElement)
        parseChild_conflict children {}
  · simpa [parseVersion3] using
      foldl_proj_append (fun m => m.replace) (recordObs "replace" Dependency.ofElement)
        parseChild_replace children {}

/-- C7: parsing fails with the root-element `SchemaError` whenever the
root tag is not `package`, with the missing-format `SchemaError`
whenever the `format` attribute is absent (empty), and with the
unsupported-version `SchemaError` whenever the format value is an
integer other than 3; a source that is not well-formed markup fails
with a `DocumentError`. -/
theorem parse_root_and_format_errors :
    (∀ msg, Metadata.parse (Document.malformed msg) = .error (.documentError msg))
  ∧ (∀ tag attrs children, tag ≠ "package" →
      Metadata.parse (Document.wellFormed tag attrs children)
        = .error (.schemaError "package.xml must contain one, and only one, <package> element."))
  ∧ (∀ attrs children, getAttr attrs "format" = "" →
      Metadata.parse (Document.wellFormed "package" attrs children)
        = .error (.schemaError "<package> must contain the 'format' attribute"))
  ∧ (∀ attrs children (n : Int), (getAttr attrs "format").length ≠ 0 →
      parseXmlInt (getAttr attrs "format") = some n → n ≠ 3 →
      Metadata.parse (Document.wellFormed "package" attrs children)
        = .error (.schemaError "pacakge.xml format version is not supported by this version of FreeCAD")) := by
  refine ⟨fun msg => rfl, ?_, ?_, ?_⟩
  · intro tag attrs children h
    simp [Metadata.parse, h]
  · intro attrs children h
    simp [Metadata.parse, h]
  · intro attrs children n hlen hint h3
    simp [Metadata.parse, hlen, hint, h3]

/-- Witness for C7 at concrete inputs. -/
theorem parse_root_and_format_errors_witness :
    Metadata.parse (Document.malformed "junk") = .error (.documentError "junk")
  ∧ Metadata.parse (Document.wellFormed "widget" [] [])
      = .error (.schemaError "package.xml must contain one, and only one, <package> element.")
  ∧ Metadata.parse (Document.wellFormed "package" [] [])
      = .error (.schemaError "<package> must contain the 'format' attribute")
  ∧ Metadata.parse (Document.wellFormed "package" [("format", "4")] [])
      = .error (.schemaError "pacakge.xml format version is not supported by this version of FreeCAD") :=
  ⟨parse_root_and_format_errors.1 "junk",
   parse_root_and_format_errors.2.1 "widget" [] [] (by decide),
   parse_root_and_format_errors.2.2.1 [] [] rfl,
   parse_root_and_format_errors.2.2.2 [("format", "4")] [] 4 (by decide) rfl (by decide)⟩

/-- C8: every record extractor is total and fieldwise: each optional
attribute defaults to the empty string when missing (`none` for the
license file path, `website` for the url type), and no extractor
validates cross-field consistency, so a dependency element carrying both
`version_eq` and `version_lt` is accepted with both fields populated,
uninterpreted. -/
theorem extractors_default_missing_and_accept_cross_fields :
    (∀ attrs cs, (Contact.ofElement attrs cs).email = getAttr attrs "email"
               ∧ (Contact.ofElement attrs cs).name = Node.textContentList cs)
  ∧ (∀ attrs cs, getAttr attrs "file" = "" → (License.ofElement attrs cs).file = none)
  ∧ (∀ attrs cs, getAttr attrs "type" = "" → (Url.ofElement attrs cs).type = some UrlType.website)
  ∧ (∀ attrs cs,
        (Dependency.ofElement attrs cs).package = Node.textContentList cs
      ∧ (Dependency.ofElement attrs cs).version_lt = getAttr attrs "version_lt"
      ∧ (Dependency.ofElement attrs cs).version_lte = getAttr attrs "version_lte"
      ∧ (Dependency.ofElement attrs cs).version_eq = getAttr attrs "version_eq"
      ∧ (Dependency.ofElement attrs cs).version_gte = getAttr attrs "version_gte"
      ∧ (Dependency.ofElement attrs cs).version_gt = getAttr attrs "version_gt"
      ∧ (Dependency.ofElement attrs cs).condition = getAttr attrs "condition")
  ∧ ((Dependency.ofElement [("version_eq", "1.0.0"), ("version_lt", "2.0.0")] []).version_eq = "1.0.0"
   ∧ (Dependency.ofElement [("version_eq", "1.0.0"), ("version_lt", "2.0.0")] []).version_lt = "2.0.0") := by
  refine ⟨fun attrs cs => ⟨rfl, rfl⟩, ?_, ?_, fun attrs cs => ⟨rfl, rfl, rfl, rfl, rfl, rfl, rfl⟩, rfl, rfl⟩
  · intro attrs cs h
    simp [License.ofElement, h]
  · intro attrs cs h
    simp [Url.ofElement, h]

/-- Witness for C8 at concrete inputs: with no attributes at all, the
license file is absent and the url type defaults to `website`. -/
theorem extractors_default_missing_witness :
    (License.ofElement [] []).file = none
  ∧ (Url.ofElement [] []).type = some UrlType.website :=
  ⟨extractors_default_missing_and_accept_cross_fields.2.1 [] [] rfl,
   extractors_default_missing_and_accept_cross_fields.2.2.1 [] [] rfl⟩

/-- C9 (code divergence): `XMLPlatformUtils::Terminate()` lives only in
the destructor, and C++ runs no destructor for an object whose
constructor threw; so on a failing parse the engine trace contains the
`Initialize` event and no `Terminate` event — the engine resource is
not released on failure exit paths, only on the success path. -/
theorem engine_not_released_on_failure :
    Metadata.lifecycle (Document.wellFormed "widget" [] [])
      = ([EngineEvent.engineInit],
         .error (.schemaError "package.xml must contain one, and only one, <package> element."))
  ∧ EngineEvent.engineTerm ∉ (Metadata.lifecycle (Document.wellFormed "widget" [] [])).1
  ∧ (∀ doc m, Metadata.parse doc = .ok m →
      Metadata.lifecycle doc = ([EngineEvent.engineInit, EngineEvent.engineTerm], .ok m)) := by
  refine ⟨rfl, by decide, ?_⟩
  intro doc m h
  simp [Metadata.lifecycle, h]

/-- Witness for C9's success-path conjunct at a concrete input. -/
theorem engine_not_released_on_failure_witness :
    Metadata.lifecycle (Document.wellFormed "package" [("format", "3")] [])
      = ([EngineEvent.engineInit, EngineEvent.engineTerm], .ok {}) :=
  engine_not_released_on_failure.2.2 (Document.wellFormed "package" [("format", "3")] []) {} rfl

/-- C10: a child node that is not an element (a text node, such as
inter-element whitespace, or a comment node) is skipped by the walk: it
leaves the whole `Metadata` under construction unchanged, and removing
it from the child list does not change the parse result. -/
theorem non_element_children_skipped (pre post : List Node) (s : String) (m : Metadata) :
    parseChild m (Node.text s) = m
  ∧ parseChild m (Node.comment s) = m
  ∧ parseVersion3 (pre ++ Node.text s :: post) = parseVersion3 (pre ++ post)
  ∧ parseVersion3 (pre ++ Node.comment s :: post) = parseVersion3 (pre ++ post) := by
  refine ⟨rfl, rfl, ?_, ?_⟩ <;>
    simp [parseVersion3, List.foldl_append, List.foldl_cons, parseChild]

end MetadataReader
